import Mathlib

/-
  Verification development for the AI-Learning-Assistant backend
  (two Flask variants: `gemini_version/app.py` against Firestore/Vertex AI,
  and `groq_version/app.py` against Postgres/pgvector with a local encoder).

  The application code is shallowly embedded below.  External collaborators
  (PDF reader, embedding provider, generative provider, markdown renderer)
  are modelled as fields of an `Env` record: a call that may raise an
  exception is a function into `Option`, with `none` standing for a raised
  exception.  Both backing stores are modelled as explicit association-list
  states threaded through the handlers; a fresh uuid is passed in as an
  argument.  `time.sleep` rate-limiting delays and the `created_at`
  timestamp are not modelled (no claim concerns real time).
-/

namespace PdfQA

/-- JSON values, as produced by Python `json.loads` on the subset of JSON
the flashcard pipeline deals with (no floats, no `\u` escapes). -/
inductive Json where
  | null : Json
  | bool (b : Bool) : Json
  | num (n : Int) : Json
  | str (s : String) : Json
  | arr (xs : List Json) : Json
  | obj (kvs : List (String × Json)) : Json

/-- The two brace characters, kept out of character-literal syntax. -/
def lbrace : Char := Char.ofNat 123

def rbrace : Char := Char.ofNat 125

def isWsChar (c : Char) : Bool := c = ' ' || c = '\n' || c = '\t' || c = '\r'

def skipWs : List Char → List Char
  | [] => []
  | c :: cs => if isWsChar c then skipWs cs else c :: cs

/-- Body of a JSON string after the opening quote; supports the common
escapes.  Fuel-indexed; `none` is a parse failure. -/
def parseStringBody : Nat → List Char → Option (String × List Char)
  | 0, _ => none
  | _ + 1, [] => none
  | f + 1, c :: cs =>
    if c = '"' then some ("", cs)
    else if c = '\\' then
      match cs with
      | [] => none
      | e :: cs2 =>
        let esc : Option Char :=
          if e = '"' then some '"'
          else if e = '\\' then some '\\'
          else if e = '/' then some '/'
          else if e = 'n' then some '\n'
          else if e = 't' then some '\t'
          else if e = 'r' then some '\r'
          else none
        match esc with
        | none => none
        | some ch =>
          (parseStringBody f cs2).map (fun p => (String.mk (ch :: p.1.toList), p.2))
    else
      (parseStringBody f cs).map (fun p => (String.mk (c :: p.1.toList), p.2))

def digitsToNat (ds : List Char) : Nat :=
  ds.foldl (fun a c => a * 10 + (c.toNat - 48)) 0

mutual

/-- Modelled from Python `json.loads` (stdlib), restricted to the JSON
subset used by the application: strings, integers, booleans, null, arrays
and objects.  A trailing-garbage check is applied by `json_loads` below. -/
def parseVal : Nat → List Char → Option (Json × List Char)
  | 0, _ => none
  | f + 1, cs =>
    match skipWs cs with
    | [] => none
    | c :: rest =>
      if c = '"' then
        (parseStringBody f rest).map (fun p => (Json.str p.1, p.2))
      else if c = '[' then
        match skipWs rest with
        | ']' :: r2 => some (Json.arr [], r2)
        | r2 =>
          (parseItems f r2).map (fun p => (Json.arr p.1, p.2))
      else if c = lbrace then
        match skipWs rest with
        | r2 =>
          if r2.headD ' ' = rbrace then some (Json.obj [], r2.tail)
          else (parseMembers f r2).map (fun p => (Json.obj p.1, p.2))
      else if c = 't' then
        match rest with
        | 'r' :: 'u' :: 'e' :: r2 => some (Json.bool true, r2)
        | _ => none
      else if c = 'f' then
        match rest with
        | 'a' :: 'l' :: 's' :: 'e' :: r2 => some (Json.bool false, r2)
        | _ => none
      else if c = 'n' then
        match rest with
        | 'u' :: 'l' :: 'l' :: r2 => some (Json.null, r2)
        | _ => none
      else if c = '-' then
        let ds := rest.takeWhile Char.isDigit
        if ds = [] then none
        else some (Json.num (-(digitsToNat ds : Int)), rest.dropWhile Char.isDigit)
      else if c.isDigit then
        let ds := (c :: rest).takeWhile Char.isDigit
        some (Json.num (digitsToNat ds : Int), (c :: rest).dropWhile Char.isDigit)
      else none

/-- One-or-more comma-separated array items, ending at a closing bracket. -/
def parseItems : Nat → List Char → Option (List Json × List Char)
  | 0, _ => none
  | f + 1, cs =>
    match parseVal f cs with
    | none => none
    | some (v, rest) =>
      match skipWs rest with
      | ',' :: r2 =>
        (parseItems f r2).map (fun p => (v :: p.1, p.2))
      | ']' :: r2 => some ([v], r2)
      | _ => none

/-- One-or-more comma-separated object members, ending at a closing brace. -/
def parseMembers : Nat → List Char → Option (List (String × Json) × List Char)
  | 0, _ => none
  | f + 1, cs =>
    match skipWs cs with
    | '"' :: r1 =>
      match parseStringBody f r1 with
      | none => none
      | some (k, r2) =>
        match skipWs r2 with
        | ':' :: r3 =>
          match parseVal f r3 with
          | none => none
          | some (v, r4) =>
            match skipWs r4 with
            | ',' :: r5 =>
              (parseMembers f r5).map (fun p => ((k, v) :: p.1, p.2))
            | r5 =>
              if r5.headD ' ' = rbrace then some ([(k, v)], r5.tail) else none
        | _ => none
    | _ => none

end

/-- Modelled from Python `json.loads`: parse one JSON value and require
only whitespace to remain ("Extra data" is a parse failure in Python). -/
def json_loads (s : String) : Option Json :=
  match parseVal (8 * s.toList.length + 8) s.toList with
  | some (v, rest) => if skipWs rest = [] then some v else none
  | none => none

/-- Python `needle in hay` on strings (substring test). -/
def isSubstr (needle hay : String) : Bool :=
  hay.toList.tails.any (fun t => needle.toList.isPrefixOf t)

def dropLeadingWs : List Char → List Char
  | [] => []
  | c :: cs => if isWsChar c then dropLeadingWs cs else c :: cs

/-- Python `s.strip()`: remove leading and trailing whitespace. -/
def pyStrip (s : String) : String :=
  String.mk ((dropLeadingWs ((dropLeadingWs s.toList).reverse)).reverse)

def replaceAll (olds news : List Char) : Nat → List Char → List Char
  | 0, cs => cs
  | _ + 1, [] => []
  | f + 1, c :: cs =>
    if olds.isPrefixOf (c :: cs) then
      news ++ replaceAll olds news f ((c :: cs).drop olds.length)
    else c :: replaceAll olds news f cs

/-- Python `s.replace(old, new)`: replace every non-overlapping occurrence,
left to right (the application never calls it with an empty pattern). -/
def pyReplace (s old new : String) : String :=
  if old = "" then s
  else String.mk (replaceAll old.toList new.toList (s.toList.length + 1) s.toList)

/-- Python `s.endswith(suffix)`. -/
def strEndsWith (s suffix : String) : Bool :=
  suffix.toList.isSuffixOf s.toList

/-- External collaborators of both app variants.  `none` models a raised
exception in the corresponding Python call. -/
structure Env where
  /-- whether the generative model handle (`model`) initialized -/
  genInit : Bool
  /-- whether the embedding model handle initialized -/
  embInit : Bool
  /-- the `USE_MOCK_AI` environment flag of the gemini variant -/
  mockAI : Bool
  /-- `PdfReader` + per-page `extract_text`: raw file bytes to the list of
  per-page extracted strings; `none` = unreadable file (reader raised) -/
  readPdf : String → Option (List String)
  /-- embedding provider: text to fixed-dimension vector (exact integer
  components stand in for the provider's floats; no claim depends on
  their values, only on identity and distance comparisons) -/
  embed : String → Option (List Int)
  /-- generative-text provider: prompt to reply -/
  llm : String → Option String
  /-- `markdown2.markdown` rendering -/
  md : String → String

/-- Modelled from the spec: langchain `RecursiveCharacterTextSplitter`
(library code, not part of this repository) — overlapping fixed-size
windows over the character sequence; consecutive chunks of length `size`
start `step = size - overlap` characters apart.  The splitter's preference
for paragraph/sentence boundaries is omitted; every claim that touches
chunking depends only on the splitter being a pure function of
`(size, overlap, text)`. -/
def slidingChunksF (size step : Nat) : Nat → List Char → List (List Char)
  | 0, _ => []
  | _ + 1, [] => []
  | f + 1, cs =>
    if cs.length ≤ size ∨ step = 0 then [cs]
    else cs.take size :: slidingChunksF size step f (cs.drop step)

def slidingChunks (size step : Nat) (cs : List Char) : List (List Char) :=
  slidingChunksF size step (cs.length + 1) cs

def splitTextWith (size overlap : Nat) (text : String) : List String :=
  (slidingChunks size (size - overlap) text.toList).map (fun cs => String.mk cs)

/-- `RecursiveCharacterTextSplitter(chunk_size=1000, chunk_overlap=100).split_text`,
as constructed identically in both variants. -/
def split_text (text : String) : List String :=
  splitTextWith 1000 100 text

/-- Squared Euclidean distance; ordering-equivalent to the Euclidean /
pgvector `<->` distance used by the two stores (both vector searches only
rank by distance). -/
def sqDist (v w : List Int) : Int :=
  ((v.zip w).map (fun p => (p.1 - p.2) ^ 2)).sum

def insertByDist (q : List Int) (r : String × List Int) :
    List (String × List Int) → List (String × List Int)
  | [] => [r]
  | x :: xs =>
    if sqDist q r.2 ≤ sqDist q x.2 then r :: x :: xs else x :: insertByDist q r xs

def sortByDist (q : List Int) (rs : List (String × List Int)) :
    List (String × List Int) :=
  rs.foldr (insertByDist q) []

/-- Top-k nearest stored chunks to a query vector: Firestore `find_nearest`
(EUCLIDEAN, limit k) and the pgvector `ORDER BY embedding <-> q LIMIT k`
query, restricted to one document's records. -/
def nearestChunks (rs : List (String × List Int)) (q : List Int) (k : Nat) :
    List String :=
  ((sortByDist q rs).map (fun r => r.1)).take k

/-- An `/upload_pdf` request: either the multipart form has no (truthy)
`pdf_file` field, or it carries a file with a filename and raw bytes
(bytes modelled as an opaque `String`). -/
inductive UploadReq where
  | noFile : UploadReq
  | file (filename : String) (content : String) : UploadReq

/-- Outcome of an upload handler: HTTP status code, the `document_id`
field of the JSON body (when present), and the post-request store state. -/
structure UploadOut (S : Type) where
  code : Nat
  document_id : Option String
  st : S

/-- Outcome of an `/ask_question` handler: HTTP status code, answer text,
post-request store state, and whether the generative-text provider was
invoked during handling. -/
structure AskOut (S : Type) where
  code : Nat
  answer : String
  st : S
  llmCalled : Bool

/-- Python dict lookup `kvs[k]` on a parsed JSON object (first match;
`json.loads` never yields duplicate keys for the inputs considered). -/
def jGet (kvs : List (String × Json)) (k : String) : Option Json :=
  List.lookup k kvs

/-- Python dict item assignment `kvs[k] = v` for an existing key:
replace in place, keeping position. -/
def jSet : List (String × Json) → String → Json → List (String × Json)
  | [], _, _ => []
  | (k1, v1) :: rest, k, v =>
    if k1 = k then (k1, v) :: rest else (k1, v1) :: jSet rest k v

/-- Python `x == "s"` where x is a JSON value: true only for the equal
string (cross-type equality is false for the types that occur). -/
def jsonIsStrEq (s : String) : Json → Bool
  | Json.str t => t == s
  | _ => false

namespace Gemini

/-- A Firestore `documents/{id}` record, as written by `upload_pdf`
(`created_at` is not modelled; no claim concerns it). -/
structure DocMeta where
  user_id : String
  file_name : String
  storage_path : String
  status : String
deriving DecidableEq

/-- One record of a document's `embeddings` subcollection. -/
structure EmbRec where
  text_chunk : String
  embedding : List Int
deriving DecidableEq

/-- The Firebase backing state: the storage bucket's blobs, the
`documents` collection and, flattened, every document's `embeddings`
subcollection as (document id, chunk key, record) triples. -/
structure FirestoreState where
  blobs : List (String × String)
  documents : List (String × DocMeta)
  embeddings : List (String × String × EmbRec)
deriving DecidableEq

def embsOf (st : FirestoreState) (docId : String) :
    List (String × String × EmbRec) :=
  st.embeddings.filter (fun r => r.1 == docId)

def chunkRecsOf (st : FirestoreState) (docId : String) :
    List (String × List Int) :=
  (embsOf st docId).map (fun r => (r.2.2.text_chunk, r.2.2.embedding))

/-- The loop `for page in pdf_reader.pages: full_text += page.extract_text() + "\n"`. -/
def concatPages : List String → String
  | [] => ""
  | p :: ps => p ++ "\n" ++ concatPages ps

/-- `extract_text_from_pdf(document_id)` of the gemini variant: look the
document up in Firestore, fetch its blob, read the PDF; every failure is
caught inside the function and yields `None`. -/
def extract_text_from_pdf (env : Env) (st : FirestoreState)
    (document_id : String) : Option String :=
  match List.lookup document_id st.documents with
  | none => none
  | some meta =>
    if meta.storage_path = "" then none
    else
      match List.lookup meta.storage_path st.blobs with
      | none => none
      | some content =>
        match env.readPdf content with
        | none => none
        | some pages => some (concatPages pages)

/-- The embedding loop of `create_and_store_embeddings`: one provider call
per chunk, accumulating the Firestore batch (`batch.set` on key
`chunk_{i}`); a provider failure raises, so the whole batch is lost. -/
def buildBatch (env : Env) (docId : String) :
    List String → Nat → Option (List (String × String × EmbRec))
  | [], _ => some []
  | c :: cs, i =>
    match env.embed c with
    | none => none
    | some v =>
      match buildBatch env docId cs (i + 1) with
      | none => none
      | some rest => some ((docId, "chunk_" ++ toString i, ⟨c, v⟩) :: rest)

/-- Firestore `doc_ref.update({'status': s})`: update the (first) record
with the given id, leaving everything else untouched. -/
def updateStatus : List (String × DocMeta) → String → String →
    List (String × DocMeta)
  | [], _, _ => []
  | (k, m) :: rest, d, s =>
    if k = d then (k, { m with status := s }) :: rest
    else (k, m) :: updateStatus rest d s

/-- `create_and_store_embeddings(document_id, text_content)`: chunk, embed
each chunk (any failure aborts before `batch.commit()`), commit the batch,
then mark the document `processed`.  Returns the final state and the
function's boolean result. -/
def create_and_store_embeddings (env : Env) (docId text : String)
    (st : FirestoreState) : FirestoreState × Bool :=
  if env.embInit = false then (st, false)
  else
    let chunks := split_text text
    match buildBatch env docId chunks 0 with
    | none => (st, false)
    | some recs =>
      let st1 : FirestoreState := { st with embeddings := st.embeddings ++ recs }
      if (List.lookup docId st1.documents).isSome then
        ({ st1 with documents := updateStatus st1.documents docId "processed" }, true)
      else
        -- `doc_ref.update` on a missing document raises after the commit
        (st1, false)

/-- `POST /upload_pdf` of the gemini variant.  `docId` is the fresh
`uuid.uuid4()` value. -/
def upload_pdf (env : Env) (docId : String) (st : FirestoreState)
    (req : UploadReq) : UploadOut FirestoreState :=
  match req with
  | .noFile => ⟨400, none, st⟩
  | .file filename content =>
    if filename = "" then ⟨400, none, st⟩
    else if strEndsWith filename ".pdf" then
      let path := "uploads/temp_user_id_123/" ++ docId ++ "/" ++ filename
      let st1 : FirestoreState := { st with blobs := (path, content) :: st.blobs }
      let st2 : FirestoreState :=
        { st1 with documents :=
            (docId, ⟨"temp_user_id_123", filename, path, "uploaded"⟩) :: st1.documents }
      let st3 : FirestoreState :=
        match extract_text_from_pdf env st2 docId with
        | some t =>
          if t = "" then st2 else (create_and_store_embeddings env docId t st2).1
        | none => st2
      ⟨201, some docId, st3⟩
    else ⟨400, none, st⟩

/-- The two hard-coded mock flashcards of `USE_MOCK_AI` mode. -/
def mockCards : Json :=
  Json.arr
    [ Json.obj [("question", Json.str "What is the capital of France?"),
                ("answer", Json.str "Paris")]
    , Json.obj [("question", Json.str "How many planets are in our solar system?"),
                ("answer", Json.str "Eight")] ]

/-- The synthetic error flashcard of the gemini variant.  Its `answer` in
the source is `str(e)`; the exception text is modelled by the fixed
placeholder "error" (no claim depends on its content). -/
def errorCard : Json :=
  Json.obj [("question", Json.str "An error occurred"), ("answer", Json.str "error")]

def flashPrompt (text : String) : String :=
  "\n    Based on the following text, generate a series of question and answer flashcards.\n    Return the response as a valid JSON array of objects, where each object has a \"question\" key and an \"answer\" key.\n    Text to analyze:\n    " ++ text ++ "\n    "

/-- `if 'question' in card: card['question'] = markdown(card['question'])`
followed by the same for `'answer'`, on one element `card` of the parsed
value; `none` models a raised `TypeError`/`AttributeError`. -/
def gemProcessField (md : String → String) (kvs : List (String × Json))
    (k : String) : Option (List (String × Json)) :=
  if kvs.any (fun kv => kv.1 == k) then
    match jGet kvs k with
    | some (Json.str s) => some (jSet kvs k (Json.str (md s)))
    | _ => none
  else some kvs

def gemProcessCard (md : String → String) : Json → Option Json
  | Json.obj kvs =>
    match gemProcessField md kvs "question" with
    | none => none
    | some kvs1 =>
      match gemProcessField md kvs1 "answer" with
      | none => none
      | some kvs2 => some (Json.obj kvs2)
  | Json.str s =>
    -- `'question' in card` on a string card is a substring test; when it
    -- holds, the item assignment on a string raises
    if isSubstr "question" s || isSubstr "answer" s then none else some (Json.str s)
  | Json.arr xs =>
    -- `'question' in card` on a list card is a membership test
    if xs.any (jsonIsStrEq "question") || xs.any (jsonIsStrEq "answer") then none
    else some (Json.arr xs)
  | _ => none

/-- The post-parse loop `for card in flashcards_data`, including Python's
behaviour when the parsed top-level value is not a list (iterating a dict
yields its keys; iterating a string yields its single characters, which
never contain the substrings tested for; numbers and booleans raise). -/
def gemProcessCards (md : String → String) : Json → Option Json
  | Json.arr cards => (cards.mapM (gemProcessCard md)).map Json.arr
  | Json.obj kvs =>
    if kvs.any (fun kv => isSubstr "question" kv.1 || isSubstr "answer" kv.1) then none
    else some (Json.obj kvs)
  | Json.str s => some (Json.str s)
  | _ => none

/-- `GET /generate_flashcards/<doc_id>` of the gemini variant.  The
returned value is the `flashcards` argument handed to the template. -/
def generate_flashcards (env : Env) (st : FirestoreState) (docId : String) :
    Json :=
  if env.mockAI then mockCards
  else if env.genInit = false then Json.arr []
  else
    match extract_text_from_pdf env st docId with
    | none => Json.arr []
    | some t =>
      if t = "" then Json.arr []
      else
        match env.llm (flashPrompt t) with
        | none => Json.arr [errorCard]
        | some reply =>
          let cleaned := pyReplace (pyReplace (pyStrip reply) "```json" "") "```" ""
          match json_loads cleaned with
          | none => Json.arr [errorCard]
          | some j =>
            match gemProcessCards env.md j with
            | none => Json.arr [errorCard]
            | some rendered => rendered

/-- The canned no-relevant-information answer of the gemini variant. -/
def cannedNoInfo : String :=
  "I\x27m sorry, I couldn\x27t find any relevant information in the document to answer that."

def qaPrompt (context question : String) : String :=
  "\n        You are a helpful assistant. Answer the following question based ONLY on the provided context.\n        If the answer is not in the context, say \"I\x27m sorry, I couldn\x27t find that information in the document.\"\n\n        Context:\n        " ++ context ++ "\n\n        Question:\n        " ++ question ++ "\n\n        Answer:\n        "

/-- `POST /ask_question/<doc_id>` of the gemini variant. -/
def ask_question (env : Env) (st : FirestoreState) (docId : String)
    (question : Option String) : AskOut FirestoreState :=
  if env.genInit = false || env.embInit = false then
    ⟨500, "AI models are not initialized.", st, false⟩
  else
    match question with
    | none => ⟨400, "No question provided.", st, false⟩
    | some q =>
      if q = "" then ⟨400, "No question provided.", st, false⟩
      else
        match env.embed q with
        | none => ⟨500, "An error occurred", st, false⟩
        | some qv =>
          if nearestChunks (chunkRecsOf st docId) qv 5 = [] then
            ⟨200, cannedNoInfo, st, false⟩
          else
            match env.llm (qaPrompt
                (String.intercalate "\n\n" (nearestChunks (chunkRecsOf st docId) qv 5)) q) with
            | none => ⟨500, "An error occurred", st, true⟩
            | some r => ⟨200, env.md r, st, true⟩

end Gemini

namespace Groq

/-- The groq variant's backing state: the `uploads/` directory, the
`documents` table rows (id, user_id, file_name) and the `embeddings`
table rows (document_id, content, embedding).  The connection runs with
`autocommit = True`, so every executed INSERT is immediately durable. -/
structure PgState where
  files : List (String × String)
  documents : List (String × String × String)
  embeddings : List (String × String × List Int)
deriving DecidableEq

/-- `SELECT content, embedding FROM embeddings WHERE document_id = d`
(insertion order models the unspecified scan order). -/
def embRowsOf (st : PgState) (docId : String) : List (String × List Int) :=
  (st.embeddings.filter (fun r => r.1 == docId)).map (fun r => (r.2.1, r.2.2))

/-- `"\n".join(page.extract_text() for page in reader.pages if page.extract_text())`. -/
def joinNonEmptyPages (pages : List String) : String :=
  String.intercalate "\n" (pages.filter (fun p => p != ""))

/-- `extract_text_from_pdf(path)` of the groq variant; the function has no
exception handler, so `.error` models an exception propagating to the
caller (missing or unreadable file). -/
def extract_text_from_pdf (env : Env) (st : PgState) (path : String) :
    Except Unit String :=
  match List.lookup path st.files with
  | none => Except.error ()
  | some content =>
    match env.readPdf content with
    | none => Except.error ()
    | some pages => Except.ok (joinNonEmptyPages pages)

/-- The per-chunk loop of the groq `upload_pdf`: embed a chunk and INSERT
it immediately (autocommit).  A failing embedding call raises, leaving
every previously inserted row in place. -/
def embedLoop (env : Env) (docId : String) :
    List String → PgState → PgState × Bool
  | [], st => (st, true)
  | c :: cs, st =>
    match env.embed c with
    | none => (st, false)
    | some v =>
      embedLoop env docId cs
        { st with embeddings := st.embeddings ++ [(docId, c, v)] }

/-- `POST /upload_pdf` of the groq variant.  There is no extension check:
any request whose `pdf_file` field is truthy (present with a non-empty
filename) is accepted.  The success response carries no explicit status
code, so Flask serves it as HTTP 200. -/
def upload_pdf (env : Env) (docId : String) (st : PgState) (req : UploadReq) :
    UploadOut PgState :=
  match req with
  | .noFile => ⟨400, none, st⟩
  | .file filename content =>
    if filename = "" then ⟨400, none, st⟩
    else
      let fname := docId ++ "_" ++ filename
      let path := "uploads/" ++ fname
      let st1 : PgState := { st with files := (path, content) :: st.files }
      let st2 : PgState :=
        { st1 with documents := (docId, "temp_user", fname) :: st1.documents }
      match extract_text_from_pdf env st2 path with
      | Except.error _ => ⟨500, none, st2⟩
      | Except.ok text =>
        let chunks := split_text text
        match embedLoop env docId chunks st2 with
        | (st3, true) => ⟨200, some docId, st3⟩
        | (st3, false) => ⟨500, none, st3⟩

/-- The synthetic error flashcard of the groq variant (`answer` is
`str(e)` in the source, modelled by the placeholder "error"). -/
def errorCard : Json :=
  Json.obj [("question", Json.str "Error generating flashcards"),
            ("answer", Json.str "error")]

def firstIdx (c : Char) : List Char → Option Nat
  | [] => none
  | x :: xs => if x = c then some 0 else (firstIdx c xs).map (· + 1)

def lastIdx (c : Char) : List Char → Option Nat
  | [] => none
  | x :: xs =>
    match lastIdx c xs with
    | some k => some (k + 1)
    | none => if x = c then some 0 else none

/-- Modelled from Python `re.search(r"\[.*\]", response, re.DOTALL)` with
`.group()`: the greedy leftmost match runs from the first opening bracket
(provided a closing bracket occurs after it) to the LAST closing bracket
of the whole string — not to the end of the first JSON array. -/
def bracketSpan (s : String) : Option String :=
  let cs := s.toList
  match firstIdx '[' cs, lastIdx ']' cs with
  | some i, some j =>
    if i < j then some (String.mk ((cs.drop i).take (j - i + 1))) else none
  | _, _ => none

def flashPrompt (text : String) : String :=
  "\nYou are an AI that ONLY outputs valid JSON.\nDO NOT include explanations, markdown, or extra text.\n\nTask:\nGenerate 8 flashcards from the text below.\n\nOutput format (STRICT):\n[\n  \x7b\"question\": \"Q1\", \"answer\": \"A1\"\x7d,\n  \x7b\"question\": \"Q2\", \"answer\": \"A2\"\x7d\n]\n\nText:\n" ++ text ++ "\n"

/-- `card["question"] = markdown(card["question"])` then the same for
`"answer"`, on one parsed card; a missing key or non-string value raises
(`none`).  Other keys of the card are preserved. -/
def groqProcessCard (md : String → String) : Json → Option Json
  | Json.obj kvs =>
    match jGet kvs "question" with
    | some (Json.str q) =>
      let kvs1 := jSet kvs "question" (Json.str (md q))
      match jGet kvs1 "answer" with
      | some (Json.str a) => some (Json.obj (jSet kvs1 "answer" (Json.str (md a))))
      | _ => none
    | _ => none
  | _ => none

/-- The post-parse loop of the groq variant; any non-array top-level value
ends in a raised `TypeError` (iterating a dict or string yields strings
or characters, whose item assignment raises). -/
def groqProcessCards (md : String → String) : Json → Option Json
  | Json.arr cards => (cards.mapM (groqProcessCard md)).map Json.arr
  | _ => none

/-- The source text of the groq flashcard prompt: `" ".join` of the first
(up to) 12 stored chunk contents of the document
(`SELECT content FROM embeddings WHERE document_id=%s LIMIT 12` — the
store's unspecified scan order is modelled as insertion order). -/
def flashSourceText (st : PgState) (docId : String) : String :=
  String.intercalate " "
    (((st.embeddings.filter (fun r => r.1 == docId)).map (fun r => r.2.1)).take 12)

/-- `GET /generate_flashcards/<doc_id>` of the groq variant.  The returned
value is the `flashcards` argument handed to the template. -/
def generate_flashcards (env : Env) (st : PgState) (docId : String) : Json :=
  if pyStrip (flashSourceText st docId) = "" then Json.arr [errorCard]
  else
    match env.llm (flashPrompt (flashSourceText st docId)) with
    | none => Json.arr [errorCard]
    | some response =>
      let resp := pyStrip response
      match bracketSpan resp with
      | none => Json.arr [errorCard]
      | some span =>
        match json_loads span with
        | none => Json.arr [errorCard]
        | some j =>
          match groqProcessCards env.md j with
          | none => Json.arr [errorCard]
          | some rendered => rendered

def qaPrompt (context question : String) : String :=
  "\n    Answer ONLY using the context below.\n    If the answer is not present, say you don\x27t know or the question asked is irrelevant to the PDF uploaded.\n\n    Context:\n    " ++ context ++ "\n\n    Question:\n    " ++ question ++ "\n    "

/-- `POST /ask_question/<doc_id>` of the groq variant.  There is no
empty-retrieval check: the provider is always invoked (possibly with an
empty context).  An exception in the handler (it has no try block) is
served by Flask as HTTP 500. -/
def ask_question (env : Env) (st : PgState) (docId : String)
    (question : Option String) : AskOut PgState :=
  match question with
  | none => ⟨400, "No question", st, false⟩
  | some q =>
    if q = "" then ⟨400, "No question", st, false⟩
    else
      match env.embed q with
      | none => ⟨500, "Internal Server Error", st, false⟩
      | some qv =>
        match env.llm (qaPrompt
            (String.intercalate "\n\n" (nearestChunks (embRowsOf st docId) qv 5)) q) with
        | none => ⟨500, "Internal Server Error", st, true⟩
        | some a => ⟨200, env.md a, st, true⟩

end Groq

/-! ## Concrete fixtures used by witnesses and counterexamples -/

/-- A fully healthy environment: one readable page "hello", every
embedding succeeds with the vector `[1]`, the provider replies
"not json", and markdown rendering is the identity. -/
def envBase : Env :=
  { genInit := true, embInit := true, mockAI := false,
    readPdf := fun _ => some ["hello"],
    embed := fun _ => some [1],
    llm := fun _ => some "not json",
    md := id }

/-- Like `envBase` but the PDF reader raises on every file. -/
def envNoPdf : Env := { envBase with readPdf := fun _ => none }

/-- Like `envBase` but every page extraction yields the empty string. -/
def envEmptyPages : Env := { envBase with readPdf := fun _ => some ["", ""] }

def stG0 : Gemini.FirestoreState := { blobs := [], documents := [], embeddings := [] }

/-- A gemini state holding one uploaded document `d` whose blob is readable. -/
def stG1 : Gemini.FirestoreState :=
  { blobs := [("p", "B")],
    documents := [("d", { user_id := "u", file_name := "f.pdf",
                          storage_path := "p", status := "uploaded" })],
    embeddings := [] }

def stQ0 : Groq.PgState := { files := [], documents := [], embeddings := [] }

/-- A groq state holding one embedded chunk for document `d`. -/
def stQ1 : Groq.PgState :=
  { files := [], documents := [], embeddings := [("d", "hello", [1])] }

/-! ## Helper lemmas -/

theorem embedLoop_documents (env : Env) (docId : String) :
    ∀ (chunks : List String) (st : Groq.PgState),
      ((Groq.embedLoop env docId chunks st).1).documents = st.documents ∧
      ((Groq.embedLoop env docId chunks st).1).files = st.files := by
  intro chunks
  induction chunks with
  | nil => intro st; exact ⟨rfl, rfl⟩
  | cons c cs ih =>
    intro st
    unfold Groq.embedLoop
    cases env.embed c with
    | none => exact ⟨rfl, rfl⟩
    | some v => exact ih _

theorem embedLoop_ok (env : Env) (docId : String) :
    ∀ (chunks : List String) (st : Groq.PgState),
      (∀ c ∈ chunks, (env.embed c).isSome) →
      (Groq.embedLoop env docId chunks st).2 = true := by
  intro chunks
  induction chunks with
  | nil => intro st _; rfl
  | cons c cs ih =>
    intro st h
    have hc : (env.embed c).isSome := h c (List.mem_cons_self c cs)
    unfold Groq.embedLoop
    cases hec : env.embed c with
    | none => rw [hec] at hc; simp [Option.isSome] at hc
    | some v => exact ih _ (fun x hx => h x (List.mem_cons_of_mem c hx))

theorem nearestChunks_nil (q : List Int) (k : Nat) : nearestChunks [] q k = [] := by
  cases k <;> rfl

theorem groq_extract_cons (env : Env) (path content : String)
    (files' : List (String × String)) (docs : List (String × String × String))
    (embs : List (String × String × List Int)) :
    Groq.extract_text_from_pdf env ⟨(path, content) :: files', docs, embs⟩ path =
      (match env.readPdf content with
       | none => Except.error ()
       | some pages => Except.ok (Groq.joinNonEmptyPages pages)) := by
  unfold Groq.extract_text_from_pdf
  simp [List.lookup]

theorem firstIdx_append_cons (c : Char) (l1 rest : List Char) (h : c ∉ l1) :
    Groq.firstIdx c (l1 ++ c :: rest) = some l1.length := by
  induction l1 with
  | nil => simp [Groq.firstIdx]
  | cons x xs ih =>
    have hx : ¬x = c := fun he => h (he ▸ List.mem_cons_self x xs)
    have hxs : c ∉ xs := fun hm => h (List.mem_cons_of_mem x hm)
    simp [Groq.firstIdx, hx, ih hxs]

theorem lastIdx_not_mem (c : Char) (l : List Char) (h : c ∉ l) :
    Groq.lastIdx c l = none := by
  induction l with
  | nil => rfl
  | cons x xs ih =>
    have hx : ¬x = c := fun he => h (he ▸ List.mem_cons_self x xs)
    have hxs : c ∉ xs := fun hm => h (List.mem_cons_of_mem x hm)
    simp [Groq.lastIdx, ih hxs, hx]

theorem lastIdx_append_right_none (c : Char) (l1 l2 : List Char) (h : c ∉ l2) :
    Groq.lastIdx c (l1 ++ l2) = Groq.lastIdx c l1 := by
  induction l1 with
  | nil => simp [lastIdx_not_mem c l2 h, Groq.lastIdx]
  | cons x xs ih => simp [Groq.lastIdx, ih]

theorem lastIdx_concat_self (c : Char) (l : List Char) :
    Groq.lastIdx c (l ++ [c]) = some l.length := by
  induction l with
  | nil => simp [Groq.lastIdx]
  | cons x xs ih => simp [Groq.lastIdx, ih]

/-- The greedy `\[.*\]` span of `pre ++ "[" ++ mid ++ "]" ++ post` with no
opening bracket in `pre` and no closing bracket in `post` is exactly
`"[" ++ mid ++ "]"`. -/
theorem bracketSpan_extract (pre mid post : List Char)
    (hpre : '[' ∉ pre) (hpost : ']' ∉ post) :
    Groq.bracketSpan (String.mk (pre ++ '[' :: (mid ++ ']' :: post))) =
      some (String.mk ('[' :: (mid ++ [']']))) := by
  have h1 : Groq.firstIdx '[' (pre ++ '[' :: (mid ++ ']' :: post)) = some pre.length :=
    firstIdx_append_cons '[' pre _ hpre
  have h2 : Groq.lastIdx ']' (pre ++ '[' :: (mid ++ ']' :: post)) =
      some (pre.length + (mid.length + 1)) := by
    have e : pre ++ '[' :: (mid ++ ']' :: post) = ((pre ++ '[' :: mid) ++ [']']) ++ post := by
      simp
    rw [e, lastIdx_append_right_none ']' _ post hpost, lastIdx_concat_self]
    simp
  have ht : List.take (mid.length + 2) ('[' :: (mid ++ ']' :: post)) =
      '[' :: (mid ++ [']']) := by
    have e2 : '[' :: (mid ++ ']' :: post) = ('[' :: (mid ++ [']'])) ++ post := by simp
    have e3 : mid.length + 2 = ('[' :: (mid ++ [']'])).length := by simp
    rw [e2, e3, List.take_left]
  simp only [Groq.bracketSpan]
  rw [show (String.mk (pre ++ '[' :: (mid ++ ']' :: post))).toList =
        pre ++ '[' :: (mid ++ ']' :: post) from rfl]
  rw [h1, h2]
  dsimp only
  rw [if_pos (by omega)]
  rw [List.drop_left pre _]
  rw [show pre.length + (mid.length + 1) - pre.length + 1 = mid.length + 2 by omega]
  rw [ht]

/-! ## The claims -/

/-- Claim C7 (confirmed): chunking with the fixed size-1000/overlap-100
parameters is deterministic — two runs of the splitter on the same text
yield identical chunk sequences.  In the embedding the splitter is a pure
function of the text (it reads no other state), so equal inputs give
equal chunk lists. -/
theorem c7_chunking_deterministic (t1 t2 : String) (h : t1 = t2) :
    split_text t1 = split_text t2 := by rw [h]

theorem c7_chunking_deterministic_witness :
    "alpha beta" = "alpha beta" ∧
      split_text "alpha beta" = split_text "alpha beta" :=
  ⟨rfl, c7_chunking_deterministic "alpha beta" "alpha beta" rfl⟩

/-- Claim C10 (confirmed): in both variants, handling an `ask_question`
request leaves the document store and the embedding store unchanged —
the handler only reads stored records and performs no insert, update or
delete on any branch (validation failure, embedding failure, empty
retrieval, provider failure, or success). -/
theorem c10_ask_question_readonly :
    ∀ (env : Env) (stG : Gemini.FirestoreState) (stQ : Groq.PgState)
      (docId : String) (question : Option String),
      (Gemini.ask_question env stG docId question).st = stG ∧
      (Groq.ask_question env stQ docId question).st = stQ := by
  intro env stG stQ docId question
  constructor
  · unfold Gemini.ask_question
    repeat' split <;> try rfl
  · unfold Groq.ask_question
    repeat' split <;> try rfl

/-- Claim C1 (corrected): only the gemini variant rejects every non-PDF
filename with HTTP 400 and no store change.  The groq variant has no
extension check at all: it rejects (400, no writes) only an absent file
or an empty filename, while a present file with any non-empty filename —
`.pdf` or not — is accepted: its bytes are saved and a `documents` row is
inserted, and the response status is never 400 (200 on success, 500 on a
pipeline exception after the writes). -/
theorem c1_upload_nonpdf_amended :
    (∀ (env : Env) (docId : String) (st : Gemini.FirestoreState)
       (filename content : String),
       strEndsWith filename ".pdf" = false →
       (Gemini.upload_pdf env docId st (UploadReq.file filename content)).code = 400 ∧
       (Gemini.upload_pdf env docId st (UploadReq.file filename content)).st = st) ∧
    (∀ (env : Env) (docId : String) (st : Gemini.FirestoreState),
       (Gemini.upload_pdf env docId st UploadReq.noFile).code = 400 ∧
       (Gemini.upload_pdf env docId st UploadReq.noFile).st = st) ∧
    (∀ (env : Env) (docId : String) (st : Groq.PgState),
       (Groq.upload_pdf env docId st UploadReq.noFile).code = 400 ∧
       (Groq.upload_pdf env docId st UploadReq.noFile).st = st) ∧
    (∀ (env : Env) (docId : String) (st : Groq.PgState) (content : String),
       (Groq.upload_pdf env docId st (UploadReq.file "" content)).code = 400 ∧
       (Groq.upload_pdf env docId st (UploadReq.file "" content)).st = st) ∧
    (∀ (env : Env) (docId : String) (st : Groq.PgState) (filename content : String),
       filename ≠ "" →
       (Groq.upload_pdf env docId st (UploadReq.file filename content)).st.documents =
         (docId, "temp_user", docId ++ "_" ++ filename) :: st.documents ∧
       ((Groq.upload_pdf env docId st (UploadReq.file filename content)).code = 200 ∨
        (Groq.upload_pdf env docId st (UploadReq.file filename content)).code = 500)) := by
  refine ⟨?_, ?_, ?_, ?_, ?_⟩
  · intro env docId st filename content h
    by_cases hf : filename = ""
    · subst hf; exact ⟨rfl, rfl⟩
    · constructor <;> simp [Gemini.upload_pdf, hf, h]
  · intro env docId st; exact ⟨rfl, rfl⟩
  · intro env docId st; exact ⟨rfl, rfl⟩
  · intro env docId st content; exact ⟨rfl, rfl⟩
  · intro env docId st filename content hf
    simp only [Groq.upload_pdf, if_neg hf]
    rw [groq_extract_cons]
    cases env.readPdf content with
    | none => exact ⟨rfl, Or.inr rfl⟩
    | some pages =>
      dsimp only
      split
      · rename_i st3 hL
        have h := (embedLoop_documents env docId (split_text (Groq.joinNonEmptyPages pages))
          ⟨("uploads/" ++ (docId ++ "_" ++ filename), content) :: st.files,
           (docId, "temp_user", docId ++ "_" ++ filename) :: st.documents,
           st.embeddings⟩).1
        rw [hL] at h
        exact ⟨h, Or.inl rfl⟩
      · rename_i st3 hL
        have h := (embedLoop_documents env docId (split_text (Groq.joinNonEmptyPages pages))
          ⟨("uploads/" ++ (docId ++ "_" ++ filename), content) :: st.files,
           (docId, "temp_user", docId ++ "_" ++ filename) :: st.documents,
           st.embeddings⟩).1
        rw [hL] at h
        exact ⟨h, Or.inr rfl⟩

theorem c1_upload_nonpdf_counterexample :
    (Groq.upload_pdf envNoPdf "d1" stQ0 (UploadReq.file "notes.txt" "junk")).code = 500 ∧
    (Groq.upload_pdf envNoPdf "d1" stQ0 (UploadReq.file "notes.txt" "junk")).st.documents =
      [("d1", "temp_user", "d1_notes.txt")] ∧
    (Groq.upload_pdf envNoPdf "d1" stQ0 (UploadReq.file "notes.txt" "junk")).st.files =
      [("uploads/d1_notes.txt", "junk")] :=
  ⟨rfl, rfl, rfl⟩

theorem c1_upload_nonpdf_witness :
    (Gemini.upload_pdf envBase "d1" stG0 (UploadReq.file "notes.txt" "junk")).code = 400 ∧
    ((Groq.upload_pdf envBase "d1" stQ0 (UploadReq.file "notes.txt" "junk")).code = 200 ∨
     (Groq.upload_pdf envBase "d1" stQ0 (UploadReq.file "notes.txt" "junk")).code = 500) :=
  ⟨(c1_upload_nonpdf_amended.1 envBase "d1" stG0 "notes.txt" "junk" rfl).1,
   (c1_upload_nonpdf_amended.2.2.2.2 envBase "d1" stQ0 "notes.txt" "junk"
      (by decide)).2⟩

/-- Claim C2 (corrected): only the gemini variant returns HTTP 201 with
the generated document id for every accepted `.pdf` upload, regardless of
whether the downstream extraction/embedding step succeeded.  The groq
variant returns HTTP 200 (Flask's default, not 201) with the document id
when the whole pipeline succeeds, and HTTP 500 when extraction or
embedding raises — even though the file and metadata row were already
written. -/
theorem c2_upload_response_amended :
    (∀ (env : Env) (docId : String) (st : Gemini.FirestoreState)
       (filename content : String),
       strEndsWith filename ".pdf" = true →
       (Gemini.upload_pdf env docId st (UploadReq.file filename content)).code = 201 ∧
       (Gemini.upload_pdf env docId st (UploadReq.file filename content)).document_id =
         some docId) ∧
    (∀ (env : Env) (docId : String) (st : Groq.PgState)
       (filename content : String) (pages : List String),
       filename ≠ "" →
       env.readPdf content = some pages →
       (∀ c ∈ split_text (Groq.joinNonEmptyPages pages), (env.embed c).isSome) →
       (Groq.upload_pdf env docId st (UploadReq.file filename content)).code = 200 ∧
       (Groq.upload_pdf env docId st (UploadReq.file filename content)).document_id =
         some docId) ∧
    (∀ (env : Env) (docId : String) (st : Groq.PgState) (filename content : String),
       filename ≠ "" →
       env.readPdf content = none →
       (Groq.upload_pdf env docId st (UploadReq.file filename content)).code = 500) := by
  refine ⟨?_, ?_, ?_⟩
  · intro env docId st filename content h
    by_cases hf : filename = ""
    · subst hf; exact absurd h (by decide)
    · constructor <;> simp [Gemini.upload_pdf, hf, h]
  · intro env docId st filename content pages hf hpdf hemb
    simp only [Groq.upload_pdf, if_neg hf]
    rw [groq_extract_cons, hpdf]
    dsimp only
    split
    · exact ⟨rfl, rfl⟩
    · rename_i st3 hL
      have hok := embedLoop_ok env docId (split_text (Groq.joinNonEmptyPages pages))
        ⟨("uploads/" ++ (docId ++ "_" ++ filename), content) :: st.files,
         (docId, "temp_user", docId ++ "_" ++ filename) :: st.documents,
         st.embeddings⟩ hemb
      rw [hL] at hok
      simp at hok
  · intro env docId st filename content hf hpdf
    simp only [Groq.upload_pdf, if_neg hf]
    rw [groq_extract_cons, hpdf]

theorem c2_upload_response_counterexample :
    (Groq.upload_pdf envBase "d1" stQ0 (UploadReq.file "a.pdf" "P")).code = 200 ∧
    (Groq.upload_pdf envBase "d1" stQ0 (UploadReq.file "a.pdf" "P")).code ≠ 201 ∧
    (Groq.upload_pdf envBase "d1" stQ0 (UploadReq.file "a.pdf" "P")).st.documents =
      [("d1", "temp_user", "d1_a.pdf")] ∧
    (Groq.upload_pdf envBase "d1" stQ0 (UploadReq.file "a.pdf" "P")).st.embeddings =
      [("d1", "hello", [1])] :=
  ⟨rfl, by decide, rfl, rfl⟩

theorem c2_upload_response_witness :
    (Gemini.upload_pdf envNoPdf "d1" stG0 (UploadReq.file "a.pdf" "B")).code = 201 ∧
    (Groq.upload_pdf envBase "d1" stQ0 (UploadReq.file "a.pdf" "P")).code = 200 ∧
    (Groq.upload_pdf envNoPdf "d1" stQ0 (UploadReq.file "a.pdf" "P")).code = 500 :=
  ⟨(c2_upload_response_amended.1 envNoPdf "d1" stG0 "a.pdf" "B" rfl).1,
   (c2_upload_response_amended.2.1 envBase "d1" stQ0 "a.pdf" "P" ["hello"]
      (by decide) rfl (by intro c hc; simp [envBase])).1,
   c2_upload_response_amended.2.2 envNoPdf "d1" stQ0 "a.pdf" "P" (by decide) rfl⟩

/-- Claim C3 (corrected): only the gemini variant short-circuits on an
empty retrieval: with zero stored embedding records for the document it
returns the canned no-relevant-information answer (HTTP 200) and never
invokes the generative-text provider.  The groq variant has no such
check: whenever the question embeds successfully it always invokes the
provider, with an empty context string when no records exist. -/
theorem c3_ask_empty_amended :
    (∀ (env : Env) (st : Gemini.FirestoreState) (docId q : String) (qv : List Int),
       env.genInit = true → env.embInit = true → q ≠ "" →
       env.embed q = some qv →
       Gemini.chunkRecsOf st docId = [] →
       (Gemini.ask_question env st docId (some q)).answer = Gemini.cannedNoInfo ∧
       (Gemini.ask_question env st docId (some q)).code = 200 ∧
       (Gemini.ask_question env st docId (some q)).llmCalled = false) ∧
    (∀ (env : Env) (st : Groq.PgState) (docId q : String) (qv : List Int),
       q ≠ "" →
       env.embed q = some qv →
       Groq.embRowsOf st docId = [] →
       (Groq.ask_question env st docId (some q)).llmCalled = true) := by
  constructor
  · intro env st docId q qv hg he hq hembed hrecs
    unfold Gemini.ask_question
    simp [hg, he, hq, hembed, hrecs, nearestChunks_nil]
  · intro env st docId q qv hq hembed hrows
    unfold Groq.ask_question
    simp only [if_neg hq, hembed]
    split <;> rfl

theorem c3_ask_empty_counterexample :
    Groq.embRowsOf stQ0 "d" = [] ∧
    (Groq.ask_question envBase stQ0 "d" (some "q")).llmCalled = true ∧
    (Groq.ask_question envBase stQ0 "d" (some "q")).answer = "not json" :=
  ⟨rfl, rfl, rfl⟩

/-- Claim C4 (confirmed): in both variants, when the provider's
flashcard reply fails JSON parsing after the variant's cleanup step
(gemini: strip + code-fence removal) or extraction step (groq: greedy
bracketed-span extraction), the handler renders a flashcard list
containing exactly one synthetic error card; the handler is a total
function of its inputs, so no failure escapes it. -/
theorem c4_flashcards_parse_failure :
    (∀ (env : Env) (st : Gemini.FirestoreState) (docId t reply : String),
       env.mockAI = false → env.genInit = true →
       Gemini.extract_text_from_pdf env st docId = some t → t ≠ "" →
       env.llm (Gemini.flashPrompt t) = some reply →
       json_loads (pyReplace (pyReplace (pyStrip reply) "```json" "") "```" "") = none →
       Gemini.generate_flashcards env st docId = Json.arr [Gemini.errorCard]) ∧
    (∀ (env : Env) (st : Groq.PgState) (docId response span : String),
       pyStrip (Groq.flashSourceText st docId) ≠ "" →
       env.llm (Groq.flashPrompt (Groq.flashSourceText st docId)) = some response →
       Groq.bracketSpan (pyStrip response) = some span →
       json_loads span = none →
       Groq.generate_flashcards env st docId = Json.arr [Groq.errorCard]) := by
  constructor
  · intro env st docId t reply hmock hinit hext ht hllm hparse
    unfold Gemini.generate_flashcards
    simp [hmock, hinit, hext, ht, hllm, hparse]
  · intro env st docId response span htext hllm hspan hparse
    unfold Groq.generate_flashcards
    simp [htext, hllm, hspan, hparse]

/-- An environment whose provider reply contains a bracketed span that is
not valid JSON. -/
def envBadSpan : Env := { envBase with llm := fun _ => some "x [1,] y" }

theorem c4_flashcards_parse_failure_witness :
    Gemini.generate_flashcards envBase stG1 "d" = Json.arr [Gemini.errorCard] ∧
    Groq.generate_flashcards envBadSpan stQ1 "d" = Json.arr [Groq.errorCard] :=
  ⟨c4_flashcards_parse_failure.1 envBase stG1 "d" "hello\n" "not json"
     rfl rfl rfl (by decide) rfl rfl,
   c4_flashcards_parse_failure.2 envBadSpan stQ1 "d" "x [1,] y" "[1,]"
     (by decide) rfl rfl rfl⟩

/-- A groq state holding one saved upload file. -/
def stQfile : Groq.PgState :=
  { files := [("uploads/x", "B")], documents := [], embeddings := [] }

/-- Claim C8 (corrected): the missing/unreadable cases behave as claimed
in the gemini variant (None), and the groq variant returns the empty
string when every page yields empty text — but it raises (rather than
returning an absence value) when the file is missing or unreadable, and
the gemini variant returns a NON-empty string (one newline per page,
since it appends `"\n"` after each page unconditionally) for a readable
document all of whose pages yield empty text. -/
theorem c8_extract_absence_amended :
    (∀ (env : Env) (st : Gemini.FirestoreState) (d : String),
       List.lookup d st.documents = none →
       Gemini.extract_text_from_pdf env st d = none) ∧
    (∀ (env : Env) (st : Gemini.FirestoreState) (d : String)
       (meta : Gemini.DocMeta) (content : String),
       List.lookup d st.documents = some meta →
       List.lookup meta.storage_path st.blobs = some content →
       env.readPdf content = none →
       Gemini.extract_text_from_pdf env st d = none) ∧
    (∀ (env : Env) (st : Gemini.FirestoreState) (d : String)
       (meta : Gemini.DocMeta) (content : String) (pages : List String),
       List.lookup d st.documents = some meta →
       meta.storage_path ≠ "" →
       List.lookup meta.storage_path st.blobs = some content →
       env.readPdf content = some pages →
       Gemini.extract_text_from_pdf env st d = some (Gemini.concatPages pages)) ∧
    (∀ pages : List String, pages ≠ [] → (∀ p ∈ pages, p = "") →
       Gemini.concatPages pages ≠ "") ∧
    (∀ (env : Env) (st : Groq.PgState) (path content : String) (pages : List String),
       List.lookup path st.files = some content →
       env.readPdf content = some pages →
       (∀ p ∈ pages, p = "") →
       Groq.extract_text_from_pdf env st path = Except.ok "") ∧
    (∀ (env : Env) (st : Groq.PgState) (path : String),
       List.lookup path st.files = none →
       Groq.extract_text_from_pdf env st path = Except.error ()) := by
  refine ⟨?_, ?_, ?_, ?_, ?_, ?_⟩
  · intro env st d hdoc
    unfold Gemini.extract_text_from_pdf
    rw [hdoc]
  · intro env st d meta content hdoc hblob hpdf
    unfold Gemini.extract_text_from_pdf
    rw [hdoc]
    by_cases hp : meta.storage_path = ""
    · simp [hp]
    · simp [hp, hblob, hpdf]
  · intro env st d meta content pages hdoc hp hblob hpdf
    unfold Gemini.extract_text_from_pdf
    rw [hdoc]
    simp [hp, hblob, hpdf]
  · intro pages hne hall
    cases pages with
    | nil => exact absurd rfl hne
    | cons p ps =>
      intro hcontra
      have hlen := congrArg String.length hcontra
      simp [Gemini.concatPages, String.length_append] at hlen
      exact absurd hlen.1.2 (by decide)
  · intro env st path content pages hfile hpdf hall
    unfold Groq.extract_text_from_pdf
    rw [hfile]
    dsimp only
    rw [hpdf]
    dsimp only
    unfold Groq.joinNonEmptyPages
    have hnil : pages.filter (fun p => p != "") = [] :=
      List.filter_eq_nil_iff.mpr (fun p hp => by simp [hall p hp])
    rw [hnil]
    rfl
  · intro env st path hfile
    unfold Groq.extract_text_from_pdf
    rw [hfile]

theorem c8_extract_absence_counterexample :
    Gemini.extract_text_from_pdf envEmptyPages stG1 "d" = some "\n\n" ∧
    ("\n\n" : String) ≠ "" :=
  ⟨rfl, by decide⟩

theorem c8_extract_absence_witness :
    Gemini.extract_text_from_pdf envBase stG0 "missing" = none ∧
    Gemini.extract_text_from_pdf envNoPdf stG1 "d" = none ∧
    Gemini.extract_text_from_pdf envBase stG1 "d" = some (Gemini.concatPages ["hello"]) ∧
    Gemini.concatPages ["", ""] ≠ "" ∧
    Groq.extract_text_from_pdf envEmptyPages stQfile "uploads/x" = Except.ok "" ∧
    Groq.extract_text_from_pdf envBase stQ0 "uploads/x" = Except.error () :=
  ⟨c8_extract_absence_amended.1 envBase stG0 "missing" rfl,
   c8_extract_absence_amended.2.1 envNoPdf stG1 "d"
     { user_id := "u", file_name := "f.pdf", storage_path := "p", status := "uploaded" }
     "B" rfl rfl rfl,
   c8_extract_absence_amended.2.2.1 envBase stG1 "d"
     { user_id := "u", file_name := "f.pdf", storage_path := "p", status := "uploaded" }
     "B" ["hello"] rfl (by decide) rfl rfl,
   c8_extract_absence_amended.2.2.2.1 ["", ""] (by decide) (by decide),
   c8_extract_absence_amended.2.2.2.2.1 envEmptyPages stQfile "uploads/x" "B" ["", ""]
     rfl rfl (by decide),
   c8_extract_absence_amended.2.2.2.2.2 envBase stQ0 "uploads/x" rfl⟩

/-- Claim C9 (corrected): the groq variant's extraction step is the greedy
regex `\[.*\]` (DOTALL), which spans from the FIRST opening bracket to the
LAST closing bracket of the whole reply — not "the first bracketed JSON
array".  A valid JSON array surrounded by prose therefore parses to that
array's flashcards only when the leading prose contains no opening bracket
and the trailing prose contains no closing bracket; bracketed prose makes
the spanned text invalid JSON and yields the synthetic error card
instead. -/
theorem c9_flashcards_span_amended :
    ∀ (env : Env) (st : Groq.PgState) (docId : String)
      (pre mid post : List Char) (reply : String) (j rendered : Json),
      pyStrip (Groq.flashSourceText st docId) ≠ "" →
      env.llm (Groq.flashPrompt (Groq.flashSourceText st docId)) = some reply →
      (pyStrip reply).toList = pre ++ '[' :: (mid ++ ']' :: post) →
      '[' ∉ pre → ']' ∉ post →
      json_loads (String.mk ('[' :: (mid ++ [']']))) = some j →
      Groq.groqProcessCards env.md j = some rendered →
      Groq.generate_flashcards env st docId = rendered := by
  intro env st docId pre mid post reply j rendered htext hllm hshape hpre hpost hjson hproc
  have hreply : pyStrip reply = String.mk (pre ++ '[' :: (mid ++ ']' :: post)) :=
    congrArg String.mk hshape
  unfold Groq.generate_flashcards
  rw [if_neg htext, hllm]
  dsimp only
  rw [hreply, bracketSpan_extract pre mid post hpre hpost]
  dsimp only
  rw [hjson]
  dsimp only
  rw [hproc]

/-- A provider whose flashcard reply is a valid JSON array surrounded by
prose whose trailing part contains a closing bracket. -/
def envProseBracket : Env :=
  { envBase with
    llm := fun _ => some "Here: [\x7b\"question\": \"q\", \"answer\": \"a\"\x7d] bye]" }

/-- A provider whose flashcard reply is a valid JSON array surrounded by
bracket-free prose. -/
def envProse : Env :=
  { envBase with
    llm := fun _ => some "Here: [\x7b\"question\": \"q\", \"answer\": \"a\"\x7d] done" }

theorem c9_flashcards_span_counterexample :
    json_loads "[\x7b\"question\": \"q\", \"answer\": \"a\"\x7d]" =
      some (Json.arr [Json.obj [("question", Json.str "q"), ("answer", Json.str "a")]]) ∧
    Groq.generate_flashcards envProseBracket stQ1 "d" = Json.arr [Groq.errorCard] :=
  ⟨rfl, rfl⟩

theorem c9_flashcards_span_witness :
    Groq.generate_flashcards envProse stQ1 "d" =
      Json.arr [Json.obj [("question", Json.str "q"), ("answer", Json.str "a")]] :=
  c9_flashcards_span_amended envProse stQ1 "d"
    ("Here: ".toList) ("\x7b\"question\": \"q\", \"answer\": \"a\"\x7d".toList)
    (" done".toList)
    "Here: [\x7b\"question\": \"q\", \"answer\": \"a\"\x7d] done"
    (Json.arr [Json.obj [("question", Json.str "q"), ("answer", Json.str "a")]])
    (Json.arr [Json.obj [("question", Json.str "q"), ("answer", Json.str "a")]])
    (by decide) rfl (by decide) (by decide) (by decide) rfl rfl

theorem buildBatch_none (env : Env) (d c : String) (hc : env.embed c = none) :
    ∀ (l : List String) (i : Nat), c ∈ l → Gemini.buildBatch env d l i = none := by
  intro l
  induction l with
  | nil => intro i h; cases h
  | cons x xs ih =>
    intro i h
    unfold Gemini.buildBatch
    rcases List.mem_cons.mp h with h1 | h2
    · subst h1; rw [hc]
    · cases hex : env.embed x with
      | none => rfl
      | some v => rw [ih (i + 1) h2]

/-- Claim C5 (confirmed): in the gemini variant, one failing embedding
call aborts the whole per-chunk loop before `batch.commit()`, so the
function returns the store unchanged (no embedding record of the batch is
stored, and the document status is untouched).  In the groq variant each
chunk is inserted under autocommit as soon as it is embedded, so a
failure at chunk index k leaves exactly the first k chunks stored. -/
theorem c5_embedding_failure_semantics :
    (∀ (env : Env) (docId text : String) (st : Gemini.FirestoreState) (c : String),
       c ∈ split_text text → env.embed c = none →
       Gemini.create_and_store_embeddings env docId text st = (st, false)) ∧
    (∀ (env : Env) (docId : String) (chunks : List String) (st : Groq.PgState)
       (k : Nat) (v : Nat → List Int),
       (∀ j, j < k → env.embed (chunks.getD j "") = some (v j)) →
       k < chunks.length →
       env.embed (chunks.getD k "") = none →
       Groq.embedLoop env docId chunks st =
         ({ st with embeddings := st.embeddings ++
             (List.range k).map (fun j => (docId, chunks.getD j "", v j)) }, false)) := by
  constructor
  · intro env docId text st c hc hfail
    unfold Gemini.create_and_store_embeddings
    cases hinit : env.embInit with
    | false => rfl
    | true =>
      rw [if_neg (by simp : ¬(true = false))]
      dsimp only
      rw [buildBatch_none env docId c hfail (split_text text) 0 hc]
  · intro env docId chunks st k v hpre hk hfail
    induction k generalizing chunks st v with
    | zero =>
      cases chunks with
      | nil => simp at hk
      | cons c cs =>
        have h0 : env.embed c = none := hfail
        unfold Groq.embedLoop
        rw [h0]
        simp
    | succ k ih =>
      cases chunks with
      | nil => simp at hk
      | cons c cs =>
        have h0 : env.embed c = some (v 0) := hpre 0 (Nat.succ_pos k)
        unfold Groq.embedLoop
        rw [h0]
        dsimp only
        rw [ih cs { st with embeddings := st.embeddings ++ [(docId, c, v 0)] }
             (fun j => v (j + 1))
             (fun j hj => hpre (j + 1) (Nat.succ_lt_succ hj))
             (by simp only [List.length_cons] at hk; omega)
             hfail]
        simp [List.range_succ_eq_map, List.map_map, Function.comp]

/-- An embedder that fails exactly on the chunk text "bad". -/
def envBadChunk : Env :=
  { envBase with embed := fun t => if t == "bad" then none else some [1] }

theorem c5_embedding_failure_semantics_witness :
    Gemini.create_and_store_embeddings envBadChunk "d" "bad" stG1 = (stG1, false) ∧
    Groq.embedLoop envBadChunk "d" ["a", "bad"] stQ0 =
      ({ stQ0 with embeddings := stQ0.embeddings ++
          (List.range 1).map (fun j => ("d", (["a", "bad"] : List String).getD j "", [1])) },
       false) :=
  ⟨c5_embedding_failure_semantics.1 envBadChunk "d" "bad" stG1 "bad" (by decide) rfl,
   c5_embedding_failure_semantics.2 envBadChunk "d" ["a", "bad"] stQ0 1 (fun _ => [1])
     (by
       intro j hj
       have hj0 : j = 0 := by omega
       subst hj0
       rfl)
     (by decide) rfl⟩

theorem uploads_path_ne_empty (docId filename : String) :
    "uploads/temp_user_id_123/" ++ docId ++ "/" ++ filename ≠ "" := by
  intro h
  have hlen := congrArg String.length h
  simp [String.length_append] at hlen
  exact absurd hlen.1.1.1 (by decide)

theorem gemini_extract_cons (env : Env) (docId filename content : String)
    (blobs' : List (String × String)) (docs' : List (String × Gemini.DocMeta))
    (embs' : List (String × String × Gemini.EmbRec)) :
    Gemini.extract_text_from_pdf env
      ⟨("uploads/temp_user_id_123/" ++ docId ++ "/" ++ filename, content) :: blobs',
       (docId, ⟨"temp_user_id_123", filename,
                "uploads/temp_user_id_123/" ++ docId ++ "/" ++ filename,
                "uploaded"⟩) :: docs',
       embs'⟩ docId =
      (match env.readPdf content with
       | none => none
       | some pages => some (Gemini.concatPages pages)) := by
  unfold Gemini.extract_text_from_pdf
  simp [List.lookup, uploads_path_ne_empty docId filename]

theorem buildBatch_fst (env : Env) (d : String) :
    ∀ (l : List String) (i : Nat) (recs : List (String × String × Gemini.EmbRec)),
      Gemini.buildBatch env d l i = some recs → ∀ r ∈ recs, r.1 = d := by
  intro l
  induction l with
  | nil =>
    intro i recs hb r hr
    unfold Gemini.buildBatch at hb
    simp at hb
    subst hb
    cases hr
  | cons x xs ih =>
    intro i recs hb r hr
    unfold Gemini.buildBatch at hb
    cases hex : env.embed x with
    | none => simp [hex] at hb
    | some v =>
      cases hbb : Gemini.buildBatch env d xs (i + 1) with
      | none => simp [hex, hbb] at hb
      | some rest =>
        simp [hex, hbb] at hb
        subst hb
        rcases List.mem_cons.mp hr with h3 | h4
        · subst h3; rfl
        · exact ih (i + 1) rest hbb r h4

/-- Claim C6 (confirmed): in the gemini variant a document's record is
created with status "uploaded", and after the synchronous pipeline the
status is either still "uploaded" or has become "processed" — "processed"
exactly when the embedding pipeline fully succeeded (readable PDF,
non-empty text, every chunk embedded and the batch committed), in which
case the document's embedding records are exactly the committed batch; on
any pipeline failure the status remains "uploaded" and the (fresh)
document has zero embedding records. -/
theorem c6_status_lifecycle :
    ∀ (env : Env) (docId : String) (st : Gemini.FirestoreState) (filename content : String),
      strEndsWith filename ".pdf" = true →
      (∀ r ∈ st.embeddings, r.1 ≠ docId) →
      ∃ m : Gemini.DocMeta,
        List.lookup docId
          (Gemini.upload_pdf env docId st (UploadReq.file filename content)).st.documents =
          some m ∧
        (m.status = "uploaded" ∨ m.status = "processed") ∧
        (m.status = "processed" ↔
          (env.embInit = true ∧
           ∃ pages recs,
             env.readPdf content = some pages ∧
             Gemini.concatPages pages ≠ "" ∧
             Gemini.buildBatch env docId (split_text (Gemini.concatPages pages)) 0 =
               some recs ∧
             Gemini.embsOf
               (Gemini.upload_pdf env docId st (UploadReq.file filename content)).st
               docId = recs)) ∧
        (m.status = "uploaded" →
          Gemini.embsOf
            (Gemini.upload_pdf env docId st (UploadReq.file filename content)).st
            docId = []) := by
  intro env docId st filename content h hfresh
  have hf : filename ≠ "" := by intro he; subst he; exact absurd h (by decide)
  have hfilt : st.embeddings.filter (fun r => r.1 == docId) = [] :=
    List.filter_eq_nil_iff.mpr (fun r hr => by simp [hfresh r hr])
  simp only [Gemini.upload_pdf, if_neg hf, h, eq_self_iff_true, if_true]
  rw [gemini_extract_cons env docId filename content st.blobs st.documents st.embeddings]
  cases hpdf : env.readPdf content with
  | none =>
    dsimp only
    refine ⟨⟨"temp_user_id_123", filename,
             "uploads/temp_user_id_123/" ++ docId ++ "/" ++ filename, "uploaded"⟩,
           by simp [List.lookup], Or.inl rfl, ?_, ?_⟩
    · constructor
      · intro hst
        have hst2 : ("uploaded" : String) = "processed" := hst
        exact absurd hst2 (by decide)
      · rintro ⟨_, pages, recs, hp, _⟩
        exact Option.noConfusion hp
    · intro _
      simp [Gemini.embsOf, hfilt]
  | some pages =>
    dsimp only
    by_cases hcp : Gemini.concatPages pages = ""
    · rw [if_pos hcp]
      refine ⟨⟨"temp_user_id_123", filename,
               "uploads/temp_user_id_123/" ++ docId ++ "/" ++ filename, "uploaded"⟩,
             by simp [List.lookup], Or.inl rfl, ?_, ?_⟩
      · constructor
        · intro hst
          have hst2 : ("uploaded" : String) = "processed" := hst
          exact absurd hst2 (by decide)
        · rintro ⟨_, pages2, recs, hp, hcp2, _⟩
          injection hp with hpe
          subst hpe
          exact absurd hcp hcp2
      · intro _
        simp [Gemini.embsOf, hfilt]
    · rw [if_neg hcp]
      cases hinit : env.embInit with
      | false =>
        have hcas : Gemini.create_and_store_embeddings env docId
            (Gemini.concatPages pages)
            ⟨("uploads/temp_user_id_123/" ++ docId ++ "/" ++ filename, content) :: st.blobs,
             (docId, ⟨"temp_user_id_123", filename,
                      "uploads/temp_user_id_123/" ++ docId ++ "/" ++ filename,
                      "uploaded"⟩) :: st.documents,
             st.embeddings⟩ =
            (⟨("uploads/temp_user_id_123/" ++ docId ++ "/" ++ filename, content) :: st.blobs,
              (docId, ⟨"temp_user_id_123", filename,
                       "uploads/temp_user_id_123/" ++ docId ++ "/" ++ filename,
                       "uploaded"⟩) :: st.documents,
              st.embeddings⟩, false) := by
          simp [Gemini.create_and_store_embeddings, hinit]
        rw [hcas]
        refine ⟨⟨"temp_user_id_123", filename,
                 "uploads/temp_user_id_123/" ++ docId ++ "/" ++ filename, "uploaded"⟩,
               by simp [List.lookup], Or.inl rfl, ?_, ?_⟩
        · constructor
          · intro hst
            have hst2 : ("uploaded" : String) = "processed" := hst
            exact absurd hst2 (by decide)
          · rintro ⟨hinit2, _⟩
            exact Bool.noConfusion hinit2
        · intro _
          simp [Gemini.embsOf, hfilt]
      | true =>
        cases hbb : Gemini.buildBatch env docId
            (split_text (Gemini.concatPages pages)) 0 with
        | none =>
          have hcas : Gemini.create_and_store_embeddings env docId
              (Gemini.concatPages pages)
              ⟨("uploads/temp_user_id_123/" ++ docId ++ "/" ++ filename, content) :: st.blobs,
               (docId, ⟨"temp_user_id_123", filename,
                        "uploads/temp_user_id_123/" ++ docId ++ "/" ++ filename,
                        "uploaded"⟩) :: st.documents,
               st.embeddings⟩ =
              (⟨("uploads/temp_user_id_123/" ++ docId ++ "/" ++ filename, content) :: st.blobs,
                (docId, ⟨"temp_user_id_123", filename,
                         "uploads/temp_user_id_123/" ++ docId ++ "/" ++ filename,
                         "uploaded"⟩) :: st.documents,
                st.embeddings⟩, false) := by
            simp [Gemini.create_and_store_embeddings, hinit, hbb]
          rw [hcas]
          refine ⟨⟨"temp_user_id_123", filename,
                   "uploads/temp_user_id_123/" ++ docId ++ "/" ++ filename, "uploaded"⟩,
                 by simp [List.lookup], Or.inl rfl, ?_, ?_⟩
          · constructor
            · intro hst
              have hst2 : ("uploaded" : String) = "processed" := hst
              exact absurd hst2 (by decide)
            · rintro ⟨_, pages2, recs2, hp, hcp2, hbb2, _⟩
              injection hp with hpe
              subst hpe
              rw [hbb] at hbb2
              cases hbb2
          · intro _
            simp [Gemini.embsOf, hfilt]
        | some recs =>
          have hrecs : recs.filter (fun r => r.1 == docId) = recs :=
            List.filter_eq_self.mpr
              (fun r hr => by simp [buildBatch_fst env docId _ 0 recs hbb r hr])
          have hcas : Gemini.create_and_store_embeddings env docId
              (Gemini.concatPages pages)
              ⟨("uploads/temp_user_id_123/" ++ docId ++ "/" ++ filename, content) :: st.blobs,
               (docId, ⟨"temp_user_id_123", filename,
                        "uploads/temp_user_id_123/" ++ docId ++ "/" ++ filename,
                        "uploaded"⟩) :: st.documents,
               st.embeddings⟩ =
              (⟨("uploads/temp_user_id_123/" ++ docId ++ "/" ++ filename, content) :: st.blobs,
                (docId, ⟨"temp_user_id_123", filename,
                         "uploads/temp_user_id_123/" ++ docId ++ "/" ++ filename,
                         "processed"⟩) :: st.documents,
                st.embeddings ++ recs⟩, true) := by
            simp [Gemini.create_and_store_embeddings, hinit, hbb, Gemini.updateStatus,
                  List.lookup]
          rw [hcas]
          refine ⟨⟨"temp_user_id_123", filename,
                   "uploads/temp_user_id_123/" ++ docId ++ "/" ++ filename, "processed"⟩,
                 by simp [List.lookup], Or.inr rfl, ?_, ?_⟩
          · constructor
            · intro _
              exact ⟨rfl, pages, recs, rfl, hcp, hbb,
                     by simp [Gemini.embsOf, List.filter_append, hfilt, hrecs]⟩
            · intro _; rfl
          · intro hst
            have hst2 : ("processed" : String) = "uploaded" := hst
            exact absurd hst2 (by decide)

theorem c6_status_lifecycle_witness :
    ∃ m : Gemini.DocMeta,
      List.lookup "d2"
        (Gemini.upload_pdf envBase "d2" stG0 (UploadReq.file "a.pdf" "B")).st.documents =
        some m ∧
      (m.status = "uploaded" ∨ m.status = "processed") := by
  obtain ⟨m, h1, h2, _, _⟩ :=
    c6_status_lifecycle envBase "d2" stG0 "a.pdf" "B" rfl (by simp [stG0])
  exact ⟨m, h1, h2⟩

theorem c3_ask_empty_witness :
    (Gemini.ask_question envBase stG1 "d" (some "q")).answer = Gemini.cannedNoInfo ∧
    (Gemini.ask_question envBase stG1 "d" (some "q")).llmCalled = false ∧
    (Groq.ask_question envBase stQ0 "d" (some "q")).llmCalled = true :=
  ⟨(c3_ask_empty_amended.1 envBase stG1 "d" "q" [1] rfl rfl (by decide) rfl rfl).1,
   (c3_ask_empty_amended.1 envBase stG1 "d" "q" [1] rfl rfl (by decide) rfl rfl).2.2,
   c3_ask_empty_amended.2 envBase stQ0 "d" "q" [1] (by decide) rfl rfl⟩

end PdfQA
